import Mathlib

/-!
Verification of the build orchestration script `src/build.py` of
proton-drive-rs against its natural-language specification.

The script's pure decision logic is embedded shallowly:
* Python strings become `String`; `str.lower()` becomes `lowerStr`
  (the raw platform strings are ASCII, so ASCII lowering is exact);
* `pathlib` paths become lists of components (`List String`);
* directory trees become lists of `(relative path, content)` pairs;
* external process calls become boolean/optional oracles passed in as
  arguments (a probe result, a build success flag, a version exit code).
-/

namespace ProtonBuild

/-! ## Python string semantics -/

/-- ASCII lowering of one character, the fragment of `str.lower()` the
platform strings exercise. -/
def lowerChar (c : Char) : Char :=
  if 'A' ≤ c ∧ c ≤ 'Z' then Char.ofNat (c.toNat + 32) else c

/-- `str.lower()` on ASCII strings. -/
def lowerStr (s : String) : String :=
  ⟨s.data.map lowerChar⟩

/-- Index of the last occurrence of a character in a list, as Python
`str.rfind` over the characters of a file name. -/
def lastDotIdx : List Char → Option Nat
  | [] => none
  | c :: rest =>
    match lastDotIdx rest with
    | some i => some (i + 1)
    | none => if c = '.' then some 0 else none

/-- Python `pathlib.PurePath.suffix` of a file name: the part of the name
from its last dot, provided that dot is neither the first nor the last
character; otherwise the empty string. -/
def pySuffix (name : String) : String :=
  match lastDotIdx name.data with
  | some i => if 0 < i ∧ i < name.data.length - 1 then ⟨name.data.drop i⟩ else ""
  | none => ""

/-- Python `str.endswith` via list suffix testing. -/
def strEndsWith (s suf : String) : Bool :=
  List.isSuffixOf suf.data s.data

/-! ## Environment prober (src/build.py lines 94-116) -/

/-- `_detect_arch` (src/build.py lines 94-104): lower the raw
`platform.machine()` string, map the three known families to the Go
architecture names, and otherwise return the lowered string. -/
def detect_arch (machine : String) : String :=
  let m := lowerStr machine
  if m = "x86_64" ∨ m = "amd64" then "amd64"
  else if m = "aarch64" ∨ m = "arm64" then "arm64"
  else if m = "i386" ∨ m = "i686" ∨ m = "x86" then "386"
  else m

/-- `_detect_os` (src/build.py lines 106-116): lower the raw
`platform.system()` string, map the three known systems, and otherwise
return the lowered string. -/
def detect_os (system : String) : String :=
  let s := lowerStr system
  if s = "windows" then "windows"
  else if s = "darwin" then "macos"
  else if s = "linux" then "linux"
  else s

/-! ## Runtime identifiers -/

/-- `arch_rid_map` of `build_go_crypto` (src/build.py line 254); `none`
models a Python `KeyError` on a missing key. -/
def arch_rid_map (a : String) : Option String :=
  if a = "386" then some "x86"
  else if a = "amd64" then some "x64"
  else if a = "arm64" then some "arm64"
  else none

/-- `os_rid_map` of `build_go_crypto` (src/build.py lines 255-261); `none`
models a Python `KeyError` on a missing key. -/
def os_rid_map (o : String) : Option String :=
  if o = "windows" then some "win"
  else if o = "darwin" then some "osx"
  else if o = "linux" then some "linux"
  else if o = "android" then some "linux-bionic"
  else if o = "ios" then some "ios"
  else none

/-- Runtime identifier computed by `build_go_crypto` (src/build.py lines
263-268): rename macos to darwin, then join the two table lookups with a
dash; a missing table entry raises, modelled by `none`. -/
def go_runtime_id (os_name arch : String) : Option String :=
  let go_os := if os_name = "macos" then "darwin" else os_name
  match os_rid_map go_os, arch_rid_map arch with
  | some o, some a => some (o ++ "-" ++ a)
  | _, _ => none

/-- Runtime identifier computed identically by `build_proton_sdk_rs`
(src/build.py lines 563-571) and `build_dll_only` (lines 790-801):
`amd64` becomes `x64`, every other arch token passes through; the OS
segment is `win`/`linux`/`osx` for the three known systems and the OS
name itself otherwise. -/
def dotnet_runtime_id (os_name arch : String) : String :=
  let dotnet_arch := if arch = "amd64" then "x64" else arch
  if os_name = "windows" then "win-" ++ dotnet_arch
  else if os_name = "linux" then "linux-" ++ dotnet_arch
  else if os_name = "macos" then "osx-" ++ dotnet_arch
  else os_name ++ "-" ++ dotnet_arch

/-- Runtime architecture token as the specification words it: `amd64` maps
to `x64`, all others pass through unchanged. -/
def claimArchToken (arch : String) : String :=
  if arch = "amd64" then "x64" else arch

/-- Runtime OS segment as the specification words it: `win` for windows,
`osx` for macos, `linux` for linux, otherwise the OS name unchanged. -/
def claimOsSegment (os : String) : String :=
  if os = "windows" then "win"
  else if os = "macos" then "osx"
  else if os = "linux" then "linux"
  else os

/-- Runtime identifier as the specification words it: OS segment and arch
token joined with a dash. -/
def claimRuntimeId (os arch : String) : String :=
  claimOsSegment os ++ "-" ++ claimArchToken arch

/-! ## Claim C1 -/

/-- Claim C1 counterexample: detection does not pass unknown raw strings
through unchanged — `_detect_arch` lowers `"MIPS64"` to `"mips64"` and
`_detect_os` lowers `"FreeBSD"` to `"freebsd"`, though neither raw string
is one of the mapped inputs. -/
theorem C1_counterexample :
    detect_arch "MIPS64" = "mips64" ∧ detect_arch "MIPS64" ≠ "MIPS64" ∧
    detect_os "FreeBSD" = "freebsd" ∧ detect_os "FreeBSD" ≠ "FreeBSD" := by
  decide

/-- Claim C1 (amended): architecture detection matches the raw machine
string case-insensitively, mapping x86_64/amd64 to amd64, aarch64/arm64 to
arm64, i386/i686/x86 to 386, and passes any other machine string through
lowercased (not unchanged); OS detection likewise maps Windows to windows,
Darwin to macos, Linux to linux, and passes any other OS string through
lowercased.  Raw ("Linux", "x86_64") yields amd64 and linux.  Both
detections are pure functions of the raw string. -/
theorem C1_detect_amended :
    (∀ m : String, lowerStr m = "x86_64" ∨ lowerStr m = "amd64" →
      detect_arch m = "amd64") ∧
    (∀ m : String, lowerStr m = "aarch64" ∨ lowerStr m = "arm64" →
      detect_arch m = "arm64") ∧
    (∀ m : String, lowerStr m = "i386" ∨ lowerStr m = "i686" ∨ lowerStr m = "x86" →
      detect_arch m = "386") ∧
    (∀ m : String, lowerStr m ≠ "x86_64" → lowerStr m ≠ "amd64" →
      lowerStr m ≠ "aarch64" → lowerStr m ≠ "arm64" → lowerStr m ≠ "i386" →
      lowerStr m ≠ "i686" → lowerStr m ≠ "x86" → detect_arch m = lowerStr m) ∧
    (∀ s : String, lowerStr s = "windows" → detect_os s = "windows") ∧
    (∀ s : String, lowerStr s = "darwin" → detect_os s = "macos") ∧
    (∀ s : String, lowerStr s = "linux" → detect_os s = "linux") ∧
    (∀ s : String, lowerStr s ≠ "windows" → lowerStr s ≠ "darwin" →
      lowerStr s ≠ "linux" → detect_os s = lowerStr s) ∧
    detect_arch "x86_64" = "amd64" ∧ detect_os "Linux" = "linux" := by
  refine ⟨?_, ?_, ?_, ?_, ?_, ?_, ?_, ?_, by decide, by decide⟩
  · intro m h
    rcases h with h | h <;> simp [detect_arch, h]
  · intro m h
    rcases h with h | h <;> simp [detect_arch, h]
  · intro m h
    rcases h with h | h | h <;> simp [detect_arch, h]
  · intro m h1 h2 h3 h4 h5 h6 h7
    simp [detect_arch, h1, h2, h3, h4, h5, h6, h7]
  · intro s h
    simp [detect_os, h]
  · intro s h
    simp [detect_os, h]
  · intro s h
    simp [detect_os, h]
  · intro s h1 h2 h3
    simp [detect_os, h1, h2, h3]

/-- Claim C1 witness: the amended theorem evaluated at concrete raw
strings. -/
theorem C1_witness :
    detect_arch "X86_64" = "amd64" ∧ detect_arch "riscv64" = "riscv64" ∧
    detect_os "FREEBSD" = "freebsd" := by
  refine ⟨C1_detect_amended.1 "X86_64" (Or.inl (by decide)), ?_, ?_⟩
  · exact (C1_detect_amended.2.2.2.1 "riscv64" (by decide) (by decide) (by decide)
      (by decide) (by decide) (by decide) (by decide)).trans (by decide)
  · exact (C1_detect_amended.2.2.2.2.2.2.2.1 "FREEBSD" (by decide) (by decide)
      (by decide)).trans (by decide)

/-! ## Claim C2 -/

/-- Claim C2 counterexample: the Go-crypto build does not pass the
architecture token 386 through unchanged — its table maps 386 to x86, so
(linux, 386) yields runtime identifier "linux-x86", not "linux-386". -/
theorem C2_counterexample :
    go_runtime_id "linux" "386" = some "linux-x86" ∧
    ("linux-x86" : String) ≠ "linux-386" := by
  decide

/-- Claim C2 (amended): `build_proton_sdk_rs` and `build_dll_only` derive
the runtime identifier exactly as the claim states (amd64 to x64, every
other arch token unchanged; win/linux/osx segments, other OS names
unchanged, joined with a dash).  `build_go_crypto` instead uses its own
fixed tables, mapping 386 to x86 and amd64 to x64, and fails (KeyError)
on any arch token outside its table rather than passing it through. -/
theorem C2_runtime_id_amended :
    (∀ os arch : String, dotnet_runtime_id os arch = claimRuntimeId os arch) ∧
    go_runtime_id "linux" "386" = some "linux-x86" ∧
    go_runtime_id "linux" "amd64" = some "linux-x64" ∧
    go_runtime_id "windows" "amd64" = some "win-x64" ∧
    go_runtime_id "macos" "arm64" = some "osx-arm64" ∧
    (∀ arch : String, arch_rid_map arch = none → go_runtime_id "linux" arch = none) := by
  refine ⟨?_, by decide, by decide, by decide, by decide, ?_⟩
  · intro os arch
    simp only [dotnet_runtime_id, claimRuntimeId, claimOsSegment, claimArchToken]
    split_ifs <;> first | rfl | simp_all
  · intro arch h
    simp [go_runtime_id, os_rid_map, arch_rid_map] at h ⊢
    simp [h]

/-- Claim C2 witness: the amended theorem evaluated at concrete tokens. -/
theorem C2_witness :
    dotnet_runtime_id "freebsd" "riscv64" = claimRuntimeId "freebsd" "riscv64" ∧
    go_runtime_id "linux" "riscv64" = none :=
  ⟨C2_runtime_id_amended.1 "freebsd" "riscv64",
   C2_runtime_id_amended.2.2.2.2.2 "riscv64" (by decide)⟩

/-! ## Artifact staging (src/build.py lines 584-618 and 856-876)

A directory tree is a list of files, each a pair of its relative path
(component list) and its content.  `shutil.copy2` overwrites an existing
file at the destination path. -/

/-- A file below a directory: relative path components and content. -/
abbrev FileEntry := List String × String

/-- Final path component, Python `Path.name`. -/
def baseName (p : List String) : String := p.getLastD ""

/-- The test `item.suffix.lower() == '.pdb'` applied to a relative path
(src/build.py lines 592 and 868). -/
def isPdbFile (p : List String) : Bool :=
  lowerStr (pySuffix (baseName p)) == ".pdb"

/-- Writing one file into a directory tree: any existing file at that path
is overwritten (`shutil.copy2`). -/
def overwriteFile (d : List FileEntry) (p : List String) (c : String) : List FileEntry :=
  d.filter (fun e => decide (e.1 ≠ p)) ++ [(p, c)]

/-- Applying a sequence of file writes to a directory tree. -/
def applyWrites (d : List FileEntry) : List FileEntry → List FileEntry
  | [] => d
  | w :: ws => applyWrites (overwriteFile d w.1 w.2) ws

/-- `copy_files_excluding_pdb` (src/build.py lines 584-608): walk the
source recursively; skip any file whose suffix lowers to `.pdb`; copy
every other file to the same relative path below the destination. -/
def copy_files_excluding_pdb (dst : List FileEntry) : List FileEntry → List FileEntry
  | [] => dst
  | f :: rest =>
    if isPdbFile f.1 then copy_files_excluding_pdb dst rest
    else copy_files_excluding_pdb (overwriteFile dst f.1 f.2) rest

/-- The copy loop of `build_dll_only` (src/build.py lines 863-876): walk
the source recursively; skip `.pdb` files; copy every other file to the
destination root under its bare name (`native_libs_dir / item.name`). -/
def dllCopyLoop (dst : List FileEntry) : List FileEntry → List FileEntry
  | [] => dst
  | f :: rest =>
    if isPdbFile f.1 then dllCopyLoop dst rest
    else dllCopyLoop (overwriteFile dst [baseName f.1] f.2) rest

/-- Staging in `build_proton_sdk_rs` (src/build.py lines 610-617): if the
per-runtime destination directory exists it is removed with
`shutil.rmtree`, then `copy_files_excluding_pdb` fills it from scratch;
the prior destination content is discarded either way. -/
def stage_sdk_rs (dest src : List FileEntry) : List FileEntry :=
  copy_files_excluding_pdb [] src

/-- Staging in `build_dll_only` (src/build.py lines 856-876): the
destination directory is created with `mkdir(parents=True, exist_ok=True)`
— it is not deleted — and the copy loop writes into whatever it already
holds. -/
def stage_dll_only (dest src : List FileEntry) : List FileEntry :=
  dllCopyLoop dest src

/-- The writes performed by `copy_files_excluding_pdb`: relative path
preserved, `.pdb` files dropped. -/
def relWrites (src : List FileEntry) : List FileEntry :=
  src.filterMap (fun f => if isPdbFile f.1 then none else some f)

/-- The writes performed by the `build_dll_only` copy loop: path flattened
to the bare file name, `.pdb` files dropped. -/
def flatWrites (src : List FileEntry) : List FileEntry :=
  src.filterMap (fun f => if isPdbFile f.1 then none else some ([baseName f.1], f.2))

theorem copy_files_eq_applyWrites (src : List FileEntry) :
    ∀ dst, copy_files_excluding_pdb dst src = applyWrites dst (relWrites src) := by
  induction src with
  | nil => intro dst; rfl
  | cons f rest ih =>
    intro dst
    by_cases h : isPdbFile f.1 <;>
      simp [copy_files_excluding_pdb, relWrites, applyWrites, h, ih,
        List.filterMap_cons]

theorem dllCopyLoop_eq_applyWrites (src : List FileEntry) :
    ∀ dst, dllCopyLoop dst src = applyWrites dst (flatWrites src) := by
  induction src with
  | nil => intro dst; rfl
  | cons f rest ih =>
    intro dst
    by_cases h : isPdbFile f.1 <;>
      simp [dllCopyLoop, flatWrites, applyWrites, h, ih, List.filterMap_cons]

/-- Predicate: the path of a file is not among the paths of a write
list. -/
def notWritten (ws : List FileEntry) (e : FileEntry) : Bool :=
  decide (e.1 ∉ ws.map Prod.fst)

theorem applyWrites_eq (ws : List FileEntry) :
    ∀ d, applyWrites d ws = d.filter (notWritten ws) ++ applyWrites [] ws := by
  induction ws with
  | nil =>
    intro d
    have h : ∀ a ∈ d, notWritten [] a = true := fun a _ => by simp [notWritten]
    simp [applyWrites, List.filter_eq_self.2 h]
  | cons w ws ih =>
    intro d
    have hnil : applyWrites [] (w :: ws) = applyWrites [w] ws := by
      simp [applyWrites, overwriteFile]
    rw [show applyWrites d (w :: ws) = applyWrites (overwriteFile d w.1 w.2) ws from rfl,
      ih, hnil, ih [w]]
    rw [overwriteFile, List.filter_append, List.append_assoc]
    congr 1
    rw [List.filter_filter]
    apply List.filter_congr
    intro a _
    by_cases h1 : a.1 = w.1 <;> by_cases h2 : a.1 ∈ ws.map Prod.fst <;>
      simp [notWritten, h1, h2]

theorem mem_applyWrites_nil {ws : List FileEntry} {e : FileEntry} :
    e ∈ applyWrites [] ws → e ∈ ws := by
  induction ws with
  | nil => intro h; simp [applyWrites] at h
  | cons w ws ih =>
    intro h
    have hnil : applyWrites [] (w :: ws) = applyWrites [w] ws := by
      simp [applyWrites, overwriteFile]
    rw [hnil, applyWrites_eq ws [w]] at h
    rcases List.mem_append.1 h with h | h
    · rcases List.mem_filter.1 h with ⟨h', _⟩
      simp at h'
      simp [h']
    · exact List.mem_cons_of_mem _ (ih h)

theorem applyWrites_path_mem {ws : List FileEntry} {e : FileEntry} :
    e ∈ applyWrites [] ws → e.1 ∈ ws.map Prod.fst :=
  fun h => List.mem_map.2 ⟨e, mem_applyWrites_nil h, rfl⟩

theorem mem_applyWrites_of_not_written {ws : List FileEntry} {d : List FileEntry}
    {e : FileEntry} (hd : e ∈ d) (hp : e.1 ∉ ws.map Prod.fst) :
    e ∈ applyWrites d ws := by
  rw [applyWrites_eq]
  exact List.mem_append.2 (Or.inl (List.mem_filter.2 ⟨hd, by simp [notWritten, hp]⟩))

theorem applyWrites_idem (ws : List FileEntry) (d : List FileEntry) :
    applyWrites (applyWrites d ws) ws = applyWrites d ws := by
  conv_lhs => rw [applyWrites_eq, applyWrites_eq ws d]
  rw [List.filter_append, List.filter_filter]
  have h1 : (applyWrites [] ws).filter (notWritten ws) = [] := by
    rw [List.filter_eq_nil_iff]
    intro a ha
    simp [notWritten, applyWrites_path_mem ha]
  have h2 : d.filter (fun a => notWritten ws a && notWritten ws a) =
      d.filter (notWritten ws) := by
    apply List.filter_congr
    intro a _
    by_cases h : notWritten ws a <;> simp [h]
  rw [h1, h2, List.append_nil, ← applyWrites_eq]

theorem mem_applyWrites_of_last_write {ws : List FileEntry} {d : List FileEntry}
    {w : FileEntry} (hnd : (ws.map Prod.fst).Nodup) (hw : w ∈ ws) :
    w ∈ applyWrites d ws := by
  induction ws generalizing d with
  | nil => simp at hw
  | cons v ws ih =>
    rw [List.map_cons, List.nodup_cons] at hnd
    rcases List.mem_cons.1 hw with rfl | hw
    · show w ∈ applyWrites (overwriteFile d w.1 w.2) ws
      have hmem : w ∈ overwriteFile d w.1 w.2 := by
        simp [overwriteFile]
      exact mem_applyWrites_of_not_written hmem hnd.1
    · exact ih hnd.2 hw

theorem mem_source_of_mem_relWrites {src : List FileEntry} {e : FileEntry}
    (h : e ∈ relWrites src) : e ∈ src ∧ isPdbFile e.1 = false := by
  rcases List.mem_filterMap.1 h with ⟨g, hg, heq⟩
  by_cases hp : isPdbFile g.1
  · simp [hp] at heq
  · simp [hp] at heq
    subst heq
    exact ⟨hg, by simpa using hp⟩

theorem mem_source_of_mem_flatWrites {src : List FileEntry} {e : FileEntry}
    (h : e ∈ flatWrites src) :
    ∃ g ∈ src, isPdbFile g.1 = false ∧ e = ([baseName g.1], g.2) := by
  rcases List.mem_filterMap.1 h with ⟨g, hg, heq⟩
  by_cases hp : isPdbFile g.1
  · simp [hp] at heq
  · simp [hp] at heq
    exact ⟨g, hg, by simpa using hp, heq.symm⟩

/-! ## Claim C3 -/

/-- Claim C3 counterexample: `build_dll_only` staging merges with the
pre-existing destination instead of replacing it — a stale file survives,
and the destination tree differs from the one obtained by staging the same
source into an empty destination. -/
theorem C3_counterexample :
    stage_dll_only [(["stale.txt"], "old")] [(["lib.so"], "new")]
      = [(["stale.txt"], "old"), (["lib.so"], "new")] ∧
    (["stale.txt"], "old") ∈ stage_dll_only [(["stale.txt"], "old")] [(["lib.so"], "new")] ∧
    stage_dll_only [(["stale.txt"], "old")] [(["lib.so"], "new")]
      ≠ stage_dll_only ([] : List FileEntry) [(["lib.so"], "new")] := by
  decide

/-- Claim C3 (amended): `build_proton_sdk_rs` staging deletes the
destination before copying, so its result is a full replacement that does
not depend on the prior destination, and restaging the same source yields
the same tree.  `build_dll_only` staging instead creates the destination
if missing and copies into it without deleting: every pre-existing file
whose path is not overwritten by a copied file survives (a merge); still,
staging the same source twice in a row yields the same destination
tree. -/
theorem C3_staging_amended :
    (∀ d d' s : List FileEntry, stage_sdk_rs d s = stage_sdk_rs d' s) ∧
    (∀ d s : List FileEntry, stage_sdk_rs (stage_sdk_rs d s) s = stage_sdk_rs d s) ∧
    (∀ (d s : List FileEntry) (e : FileEntry),
      e ∈ d → e.1 ∉ (flatWrites s).map Prod.fst → e ∈ stage_dll_only d s) ∧
    (∀ d s : List FileEntry, stage_dll_only (stage_dll_only d s) s = stage_dll_only d s) := by
  refine ⟨fun _ _ _ => rfl, fun _ _ => rfl, ?_, ?_⟩
  · intro d s e hd hp
    rw [stage_dll_only, dllCopyLoop_eq_applyWrites]
    exact mem_applyWrites_of_not_written hd hp
  · intro d s
    simp only [stage_dll_only, dllCopyLoop_eq_applyWrites]
    exact applyWrites_idem _ _

/-- Claim C3 witness: the amended survival statement evaluated at a
concrete destination and source. -/
theorem C3_witness :
    (["keep.txt"], "v1") ∈ stage_dll_only [(["keep.txt"], "v1")] [(["out.so"], "v2")] :=
  C3_staging_amended.2.2.1 _ _ _ (by decide) (by decide)

/-! ## Claim C9 -/

/-- Claim C9 counterexample: the `build_dll_only` copy loop flattens — a
source file at subdir/f.so lands at f.so in the destination root, not at
subdir/f.so. -/
theorem C9_counterexample :
    stage_dll_only [] [((["subdir", "f.so"] : List String), "c")]
      = [((["f.so"] : List String), "c")] ∧
    ((["subdir", "f.so"] : List String), "c")
      ∉ stage_dll_only [] [((["subdir", "f.so"] : List String), "c")] := by
  decide

/-- Claim C9 (amended): `copy_files_excluding_pdb` (the staging copy of
`build_proton_sdk_rs`) is recursive, preserves each copied file's relative
path, copies nothing but source files, and skips every file whose suffix
lowers to `.pdb`; the copy loop of `build_dll_only` also skips `.pdb`
files but flattens every copied file to the destination root under its
bare name instead of preserving its relative path. -/
theorem C9_copy_amended :
    (∀ (s : List FileEntry) (f : FileEntry), f ∈ s → isPdbFile f.1 = false →
      ((relWrites s).map Prod.fst).Nodup → f ∈ copy_files_excluding_pdb [] s) ∧
    (∀ (s : List FileEntry) (f : FileEntry), f ∈ copy_files_excluding_pdb [] s →
      f ∈ s ∧ isPdbFile f.1 = false) ∧
    (∀ (s : List FileEntry) (f : FileEntry), f ∈ s → isPdbFile f.1 = false →
      ((flatWrites s).map Prod.fst).Nodup →
      ([baseName f.1], f.2) ∈ stage_dll_only [] s) ∧
    (∀ (s : List FileEntry) (f : FileEntry), f ∈ stage_dll_only [] s →
      ∃ g ∈ s, isPdbFile g.1 = false ∧ f = ([baseName g.1], g.2)) := by
  refine ⟨?_, ?_, ?_, ?_⟩
  · intro s f hf hp hnd
    rw [copy_files_eq_applyWrites]
    exact mem_applyWrites_of_last_write hnd
      (List.mem_filterMap.2 ⟨f, hf, by simp [hp]⟩)
  · intro s f hf
    rw [copy_files_eq_applyWrites] at hf
    exact mem_source_of_mem_relWrites (mem_applyWrites_nil hf)
  · intro s f hf hp hnd
    rw [stage_dll_only, dllCopyLoop_eq_applyWrites]
    exact mem_applyWrites_of_last_write hnd
      (List.mem_filterMap.2 ⟨f, hf, by simp [hp]⟩)
  · intro s f hf
    rw [stage_dll_only, dllCopyLoop_eq_applyWrites] at hf
    exact mem_source_of_mem_flatWrites (mem_applyWrites_nil hf)

/-- Claim C9 witness: the amended theorem evaluated on a concrete source
tree holding a nested shared object and a debug-symbol file. -/
theorem C9_witness :
    ((["sub", "a.so"] : List String), "x") ∈
      copy_files_excluding_pdb []
        [((["sub", "a.so"] : List String), "x"), ((["a.pdb"] : List String), "y")] :=
  C9_copy_amended.1 _ _ (by decide) (by decide) (by decide)

/-! ## Windows toolchain resolution (src/build.py lines 280-306) -/

/-- The toolchain families the specification speaks about. -/
inductive CandidateKind
  | msvc
  | clangcl
  | mingw
deriving DecidableEq

/-- The candidates `build_go_crypto` actually probes on a Windows target
(src/build.py lines 281-304): exactly one, MinGW GCC, via
`gcc --version` with a 10-second timeout. -/
def windowsProbeSequence : List (CandidateKind × List String) :=
  [(CandidateKind.mingw, ["gcc", "--version"])]

/-- The environment overlay applied when the MinGW probe succeeds
(src/build.py lines 293-298). -/
def mingwEnvOverlay : List (String × String) :=
  [("CC", "gcc"), ("CXX", "g++"), ("CGO_CFLAGS", "-O2"),
   ("CGO_LDFLAGS", "-s -w -static -static-libgcc -static-libstdc++")]

/-- Windows toolchain resolution (src/build.py lines 281-304): if the
single gcc probe succeeds, the MinGW overlay is selected; otherwise no
toolchain is selected and `build_go_crypto` returns. -/
def resolveWindowsToolchain (gccProbeOk : Bool) : Option (List (String × String)) :=
  if gccProbeOk then some mingwEnvOverlay else none

/-! ## Go build-mode loop (src/build.py lines 251, 317-394) -/

/-- Outcome of one build mode in `build_go_crypto`. -/
inductive ModeOutcome
  | built
  | buildFailed
  | unsupported
deriving DecidableEq

/-- The build modes compiled by `build_go_crypto` (src/build.py
line 251). -/
def build_modes : List String := ["c-shared", "c-archive"]

/-- Whether a build mode is attempted for an OS: the loop skips c-archive
on android and c-shared on ios (src/build.py lines 331-347), attempting
every other combination. -/
def modeSupported (go_os mode : String) : Bool :=
  !((go_os == "android" && mode == "c-archive") ||
    (go_os == "ios" && mode == "c-shared"))

/-- The per-mode loop of `build_go_crypto` (src/build.py lines 317-394):
for each supported mode the external go build command is run exactly once
inside the try block (lines 364-372); on `CalledProcessError` the mode is
skipped via `continue` (lines 385-394) and the loop moves to the next
mode.  Each triple records the mode, its outcome, and the number of go
build invocations spent on it. -/
def goModeLoop (go_os : String) (buildOk : String → Bool) :
    List (String × ModeOutcome × Nat) :=
  build_modes.map (fun m =>
    if modeSupported go_os m then
      (m, (if buildOk m then ModeOutcome.built else ModeOutcome.buildFailed), 1)
    else (m, ModeOutcome.unsupported, 0))

/-- `build_go_crypto` on Windows (src/build.py lines 281-304 then
317-394): if the gcc probe fails the function returns before the loop, so
no build is invoked at all. -/
def go_crypto_windows (gccProbeOk : Bool) (buildOk : String → Bool) :
    List (String × ModeOutcome × Nat) :=
  if gccProbeOk then goModeLoop "windows" buildOk else []

/-! ## Claim C4 -/

/-- Claim C4 counterexample: on a Windows target the probe sequence
consists of the single MinGW GCC candidate — it is not the claimed
three-step MSVC, clang, MinGW order, and no MSVC-style candidate is probed
first. -/
theorem C4_counterexample :
    windowsProbeSequence.map Prod.fst = [CandidateKind.mingw] ∧
    windowsProbeSequence.map Prod.fst
      ≠ [CandidateKind.msvc, CandidateKind.clangcl, CandidateKind.mingw] := by
  decide

/-- Claim C4 (amended): for every Windows target, native-toolchain
resolution probes exactly one candidate, the MinGW GCC front-end via
`gcc --version`; if the probe succeeds the MinGW environment overlay is
selected, and if it fails no toolchain is selected and the Go build
performs no build invocation at all.  No MSVC-style or LLVM/Clang
candidate is ever probed. -/
theorem C4_toolchain_amended :
    windowsProbeSequence.map Prod.fst = [CandidateKind.mingw] ∧
    CandidateKind.msvc ∉ windowsProbeSequence.map Prod.fst ∧
    CandidateKind.clangcl ∉ windowsProbeSequence.map Prod.fst ∧
    resolveWindowsToolchain true = some mingwEnvOverlay ∧
    resolveWindowsToolchain false = none ∧
    (∀ buildOk : String → Bool, go_crypto_windows false buildOk = []) := by
  refine ⟨rfl, by decide, by decide, rfl, rfl, fun _ => rfl⟩

/-! ## Claim C5 -/

/-- Claim C5 counterexample: when the c-shared build fails on linux, the
go build for that mode has been invoked exactly once — there is no second
invocation with a MinGW overlay — and the loop simply continues with
c-archive. -/
theorem C5_counterexample :
    goModeLoop "linux" (fun m => m != "c-shared")
      = [("c-shared", ModeOutcome.buildFailed, 1), ("c-archive", ModeOutcome.built, 1)] ∧
    ("c-shared", ModeOutcome.buildFailed, (2 : Nat))
      ∉ goModeLoop "linux" (fun m => m != "c-shared") := by
  decide

/-- Claim C5 (amended): for every build mode, `build_go_crypto` invokes
the external go build at most once; a mode whose build invocation fails is
given up on immediately after that single invocation — there is no retry
with the MinGW environment overlay — and the loop always continues
through every build mode in order. -/
theorem C5_no_retry_amended :
    (∀ (go_os : String) (buildOk : String → Bool) (x : String × ModeOutcome × Nat),
      x ∈ goModeLoop go_os buildOk →
      x.2.2 ≤ 1 ∧ (x.2.1 = ModeOutcome.buildFailed → x.2.2 = 1)) ∧
    (∀ (go_os : String) (buildOk : String → Bool),
      (goModeLoop go_os buildOk).map Prod.fst = build_modes) := by
  constructor
  · intro go_os buildOk x hx
    rcases List.mem_map.1 hx with ⟨m, _, rfl⟩
    by_cases hs : modeSupported go_os m <;> by_cases hb : buildOk m <;>
      simp [hs, hb]
  · intro go_os buildOk
    rw [goModeLoop, List.map_map]
    have h : (Prod.fst ∘ fun m =>
        if modeSupported go_os m then
          (m, (if buildOk m then ModeOutcome.built else ModeOutcome.buildFailed), 1)
        else (m, ModeOutcome.unsupported, 0)) = id := by
      funext m
      by_cases hs : modeSupported go_os m <;> simp [hs]
    rw [h, List.map_id]

/-- Claim C5 witness: the amended theorem evaluated at a concrete failing
mode. -/
theorem C5_witness :
    (("c-shared", ModeOutcome.buildFailed, (1 : Nat)).2.2 ≤ 1 ∧
      (("c-shared", ModeOutcome.buildFailed, (1 : Nat)).2.1 = ModeOutcome.buildFailed →
        ("c-shared", ModeOutcome.buildFailed, (1 : Nat)).2.2 = 1)) :=
  C5_no_retry_amended.1 "linux" (fun _ => false)
    ("c-shared", ModeOutcome.buildFailed, 1) (by decide)

/-! ## Dependency check and step executor (src/build.py lines 170-225, 741-783)

A tool probe result is `some rc` for a subprocess that exited with code
`rc`, and `none` for a raised `CalledProcessError`, `TimeoutExpired` or
`FileNotFoundError`.  A step action is an oracle from the step name to
whether its external invocations all succeed. -/

/-- `self.required_tools` (src/build.py line 82). -/
def required_tools : List String := ["git", "dotnet", "cargo", "rustc", "go", "gcc"]

/-- The version invocation used to probe a tool (src/build.py line 179):
`go version` for go, `<tool> --version` for the rest. -/
def versionCmd (tool : String) : List String :=
  if tool = "go" then [tool, "version"] else [tool, "--version"]

/-- The `missing_tools` list built by `check_dependencies` (src/build.py
lines 174-192): a required tool is missing unless its version invocation
returns exit code 0. -/
def missingTools (probe : String → Option Int) : List String :=
  required_tools.filter (fun t => decide (probe t ≠ some 0))

/-- Result of a run of `build_all`: either the process exits with a code
(`sys.exit`), or the step loop completes.  Both carry the names of the
step actions invoked so far. -/
inductive RunResult
  | exited (code : Nat) (invoked : List String)
  | completed (invoked : List String)
deriving DecidableEq

/-- The step actions invoked during the run. -/
def invokedOf : RunResult → List String
  | RunResult.exited _ l => l
  | RunResult.completed l => l

/-- The process exit status of the run. -/
def statusOf : RunResult → Nat
  | RunResult.exited c _ => c
  | RunResult.completed _ => 0

/-- The step loop of `build_all` (src/build.py lines 766-771, with the
exception handlers of lines 775-783): in declared order, a step whose name
is in the exclusion list is skipped; otherwise its action is invoked — if
the action raises, the handler prints the failure and exits with status 1.
The log accumulates the invoked actions. -/
def stepLoop (excluded : List String) (actionOk : String → Bool) :
    List (String × String) → List String → RunResult
  | [], log => RunResult.completed log
  | (name, _) :: rest, log =>
    if name ∈ excluded then stepLoop excluded actionOk rest log
    else if actionOk name then stepLoop excluded actionOk rest (log ++ [name])
    else RunResult.exited 1 (log ++ [name])

/-- `all_steps` of `build_all` (src/build.py lines 747-753); the rust step
is commented out in the source. -/
def all_steps : List (String × String) :=
  [("clone", "Repository cloning"), ("crypto", "dotnet-crypto build"),
   ("protos", "Protobuf copying"), ("sdk", "Proton.SDK build")]

/-- `build_all` (src/build.py lines 741-783): `check_dependencies` runs
before any step; if any required tool is missing it calls `sys.exit(1)`
(line 223), whose `SystemExit` is not caught by the handlers of
`build_all`, so the run ends with status 1 and zero invoked actions.
Otherwise the step loop runs. -/
def build_all (excluded : List String) (probe : String → Option Int)
    (actionOk : String → Bool) : RunResult :=
  if missingTools probe = [] then stepLoop excluded actionOk all_steps []
  else RunResult.exited 1 []

/-! ## Claim C6 -/

/-- Claim C6 (confirmed): whenever at least one required tool's version
invocation fails, exits non-zero, or times out, the run exits with status
1 before any step action is invoked: the invoked-action log is empty and
the status is non-zero, for every exclusion set and every action
behaviour. -/
theorem C6_missing_tool_aborts :
    ∀ (excluded : List String) (probe : String → Option Int) (actionOk : String → Bool),
      (∃ t ∈ required_tools, probe t ≠ some 0) →
      build_all excluded probe actionOk = RunResult.exited 1 [] ∧
      invokedOf (build_all excluded probe actionOk) = [] ∧
      statusOf (build_all excluded probe actionOk) ≠ 0 := by
  intro excluded probe actionOk h
  rcases h with ⟨t, ht, hp⟩
  have hne : missingTools probe ≠ [] := by
    intro h0
    have hmem : t ∈ missingTools probe :=
      List.mem_filter.2 ⟨ht, by simpa using hp⟩
    rw [h0] at hmem
    simp at hmem
  simp [build_all, hne, invokedOf, statusOf]

/-- Claim C6 witness: a probe on which every tool invocation raises. -/
theorem C6_witness :
    build_all [] (fun _ => none) (fun _ => true) = RunResult.exited 1 [] :=
  (C6_missing_tool_aborts [] (fun _ => none) (fun _ => true)
    ⟨"git", by decide, by simp⟩).1

/-! ## Claim C7 -/

theorem stepLoop_invoked_ok (excluded : List String) (actionOk : String → Bool) :
    ∀ (steps : List (String × String)) (log : List String),
      (∀ s ∈ steps, s.1 ∉ excluded → actionOk s.1 = true) →
      invokedOf (stepLoop excluded actionOk steps log) =
        log ++ (steps.filter (fun s => decide (s.1 ∉ excluded))).map Prod.fst := by
  intro steps
  induction steps with
  | nil =>
    intro log _
    simp [stepLoop, invokedOf]
  | cons s rest ih =>
    intro log hok
    obtain ⟨name, desc⟩ := s
    by_cases hmem : name ∈ excluded
    · rw [show stepLoop excluded actionOk ((name, desc) :: rest) log =
          stepLoop excluded actionOk rest log from if_pos hmem]
      rw [ih log (fun s hs => hok s (List.mem_cons_of_mem _ hs))]
      simp [hmem]
    · have ha : actionOk name = true := hok (name, desc) (List.mem_cons_self _ _) hmem
      rw [show stepLoop excluded actionOk ((name, desc) :: rest) log =
          stepLoop excluded actionOk rest (log ++ [name]) by
        simp [stepLoop, hmem, ha]]
      rw [ih (log ++ [name]) (fun s hs => hok s (List.mem_cons_of_mem _ hs))]
      simp [hmem]

theorem stepLoop_invoked_sub (excluded : List String) (actionOk : String → Bool) :
    ∀ (steps : List (String × String)) (log : List String) (x : String),
      x ∈ invokedOf (stepLoop excluded actionOk steps log) →
      x ∈ log ∨ ∃ s ∈ steps, s.1 = x ∧ s.1 ∉ excluded := by
  intro steps
  induction steps with
  | nil =>
    intro log x hx
    exact Or.inl (by simpa [stepLoop, invokedOf] using hx)
  | cons s rest ih =>
    intro log x hx
    obtain ⟨name, desc⟩ := s
    by_cases hmem : name ∈ excluded
    · rw [show stepLoop excluded actionOk ((name, desc) :: rest) log =
          stepLoop excluded actionOk rest log from if_pos hmem] at hx
      rcases ih log x hx with h | ⟨s', hs', hx', hex'⟩
      · exact Or.inl h
      · exact Or.inr ⟨s', List.mem_cons_of_mem _ hs', hx', hex'⟩
    · by_cases ha : actionOk name = true
      · rw [show stepLoop excluded actionOk ((name, desc) :: rest) log =
            stepLoop excluded actionOk rest (log ++ [name]) by
          simp [stepLoop, hmem, ha]] at hx
        rcases ih (log ++ [name]) x hx with h | ⟨s', hs', hx', hex'⟩
        · rcases List.mem_append.1 h with h | h
          · exact Or.inl h
          · exact Or.inr ⟨(name, desc), List.mem_cons_self _ _,
              (List.mem_singleton.1 h).symm, hmem⟩
        · exact Or.inr ⟨s', List.mem_cons_of_mem _ hs', hx', hex'⟩
      · rw [show stepLoop excluded actionOk ((name, desc) :: rest) log =
            RunResult.exited 1 (log ++ [name]) by
          simp [stepLoop, hmem, ha]] at hx
        have hx' : x ∈ log ∨ x = name := by simpa [invokedOf] using hx
        rcases hx' with h | rfl
        · exact Or.inl h
        · exact Or.inr ⟨(x, desc), List.mem_cons_self _ _, rfl, hmem⟩

/-- Claim C7 (confirmed): for every ordered step list, exclusion set and
action behaviour, when every selected action succeeds the executed actions
are exactly the steps whose name is not excluded, in declared order; and a
step whose name is in the exclusion set is never invoked, whether or not
some action fails. -/
theorem C7_step_filter :
    ∀ (steps : List (String × String)) (excluded : List String) (actionOk : String → Bool),
      ((∀ s ∈ steps, s.1 ∉ excluded → actionOk s.1 = true) →
        invokedOf (stepLoop excluded actionOk steps []) =
          (steps.filter (fun s => decide (s.1 ∉ excluded))).map Prod.fst) ∧
      (∀ s ∈ steps, s.1 ∈ excluded →
        s.1 ∉ invokedOf (stepLoop excluded actionOk steps [])) := by
  intro steps excluded actionOk
  constructor
  · intro hok
    simpa using stepLoop_invoked_ok excluded actionOk steps [] hok
  · intro s hs hex hmem
    rcases stepLoop_invoked_sub excluded actionOk steps [] s.1 hmem with h | ⟨s', _, hx', hex'⟩
    · simp at h
    · rw [hx'] at hex'
      exact hex' hex

/-- Claim C7 witness: the executor on the script's own step list with the
crypto and sdk steps excluded. -/
theorem C7_witness :
    invokedOf (stepLoop ["crypto", "sdk"] (fun _ => true) all_steps []) =
      ["clone", "protos"] :=
  ((C7_step_filter all_steps ["crypto", "sdk"] (fun _ => true)).1
    (fun _ _ _ => rfl)).trans (by decide)

/-! ## Archive repackaging (src/build.py lines 449-491)

The nupkg archive is modelled by its set of file entries, each a relative
path as a component list.  `build_dotnet_crypto` extracts the archive,
copies each found native library into `runtimes/<rid>/native/` inside the
extracted tree (the rid taken from the library's own path), deletes the
original archive and re-zips the full tree. -/

/-- Index of the first component equal to "runtimes" in a library path
(src/build.py lines 468-472). -/
def findRuntimesIdx : List String → Option Nat
  | [] => none
  | p :: rest =>
    if p = "runtimes" then some 0 else (findRuntimesIdx rest).map (· + 1)

/-- The archive entry created for one injected native library
(src/build.py lines 465-481): if the path has a "runtimes" component
followed by at least two more components, the entry is
`runtimes/<rid>/native/<filename>` with the rid the component after
"runtimes" and the filename the last component; otherwise the library is
not copied. -/
def injectionEntry (libParts : List String) : Option (List String) :=
  match findRuntimesIdx libParts with
  | none => none
  | some i =>
    if i + 2 < libParts.length then
      some ["runtimes", libParts.getD (i + 1) "", "native", libParts.getLastD ""]
    else none

/-- Adding a file to the extracted tree: `shutil.copy2` overwrites, so an
already-present entry is not duplicated. -/
def fsInsert (fs : List (List String)) (p : List String) : List (List String) :=
  if p ∈ fs then fs else fs ++ [p]

/-- The repackaging of `build_dotnet_crypto` (src/build.py lines 457-489):
starting from the extracted pre-existing entries, copy each injected
library's entry in, then re-zip everything. -/
def repackage : List (List String) → List (List String) → List (List String)
  | pre, [] => pre
  | pre, lib :: rest =>
    repackage (match injectionEntry lib with
      | some e => fsInsert pre e
      | none => pre) rest

theorem mem_fsInsert {fs : List (List String)} {p e : List String} :
    e ∈ fsInsert fs p ↔ e ∈ fs ∨ e = p := by
  unfold fsInsert
  split_ifs with h
  · constructor
    · exact Or.inl
    · rintro (h' | rfl)
      · exact h'
      · exact h
  · simp

/-! ## Claim C8 -/

/-- Claim C8 (confirmed): repackaging yields an archive whose entry set is
exactly the pre-existing entries plus, for each injected library whose
path carries a runtime id, the entry runtimes/rid/native/filename with the
rid parsed from that library's own path; in particular pre-existing
{a.dll, b.txt} with one linux-x64 injection yields exactly
{a.dll, b.txt, runtimes/linux-x64/native/libproton_crypto.so}. -/
theorem C8_repackage_entries :
    (∀ (libs pre : List (List String)) (e : List String),
      e ∈ repackage pre libs ↔ e ∈ pre ∨ ∃ l ∈ libs, injectionEntry l = some e) ∧
    repackage [["a.dll"], ["b.txt"]]
        [["bin", "runtimes", "linux-x64", "native", "libproton_crypto.so"]]
      = [["a.dll"], ["b.txt"], ["runtimes", "linux-x64", "native", "libproton_crypto.so"]] := by
  constructor
  · intro libs
    induction libs with
    | nil =>
      intro pre e
      simp [repackage]
    | cons lib rest ih =>
      intro pre e
      cases h : injectionEntry lib with
      | none =>
        rw [show repackage pre (lib :: rest) = repackage pre rest by
          simp [repackage, h]]
        rw [ih pre e]
        constructor
        · rintro (hp | ⟨l, hl, he⟩)
          · exact Or.inl hp
          · exact Or.inr ⟨l, List.mem_cons_of_mem _ hl, he⟩
        · rintro (hp | ⟨l, hl, he⟩)
          · exact Or.inl hp
          · rcases List.mem_cons.1 hl with rfl | hl
            · rw [h] at he
              cases he
            · exact Or.inr ⟨l, hl, he⟩
      | some a =>
        rw [show repackage pre (lib :: rest) = repackage (fsInsert pre a) rest by
          simp [repackage, h]]
        rw [ih (fsInsert pre a) e]
        rw [mem_fsInsert]
        constructor
        · rintro ((hp | rfl) | ⟨l, hl, he⟩)
          · exact Or.inl hp
          · exact Or.inr ⟨lib, List.mem_cons_self _ _, h⟩
          · exact Or.inr ⟨l, List.mem_cons_of_mem _ hl, he⟩
        · rintro (hp | ⟨l, hl, he⟩)
          · exact Or.inl (Or.inl hp)
          · rcases List.mem_cons.1 hl with rfl | hl
            · rw [h] at he
              exact Or.inl (Or.inr (Option.some_injective _ he).symm)
            · exact Or.inr ⟨l, hl, he⟩
  · decide

/-! ## Protobuf copying (src/build.py lines 505-545) -/

/-- The state `copy_protobufs` reads and writes: existence of the source
protos directory and of the proton-sdk-sys directory, the file names in
the source directory, whether the target directory exists, and the file
names in the target directory. -/
structure ProtoState where
  sourceExists : Bool
  sourceFiles : List String
  sysDirExists : Bool
  targetDirExists : Bool
  targetFiles : List String
deriving DecidableEq

/-- A file name matched by the pattern `*.proto` under pathlib glob
semantics (fnmatch: any name ending in ".proto"). -/
def protoGlob (name : String) : Bool :=
  strEndsWith name ".proto"

/-- `copy_protobufs` (src/build.py lines 505-545): if the source protobuf
directory is missing, warn and return (lines 516-518); if the
proton-sdk-sys directory is missing, report and return (lines 520-522);
otherwise create the target directory (line 525), delete every `*.proto`
file in it (lines 528-531) and copy every `*.proto` file from the source
(lines 534-539). -/
def copy_protobufs (s : ProtoState) : ProtoState :=
  if s.sourceExists = false then s
  else if s.sysDirExists = false then s
  else
    { s with
      targetDirExists := true,
      targetFiles := s.targetFiles.filter (fun f => !protoGlob f)
        ++ s.sourceFiles.filter protoGlob }

/-! ## Claim C10 -/

/-- Claim C10 (confirmed): for every state of the target protobuf
directory, when the source protobuf directory does not exist
`copy_protobufs` returns immediately and the whole state — in particular
the target directory and its pre-existing .proto files — is left
completely unchanged; no deletion or copy happens on the missing-source
path. -/
theorem C10_missing_source_unchanged :
    ∀ s : ProtoState, s.sourceExists = false → copy_protobufs s = s := by
  intro s h
  simp [copy_protobufs, h]

/-- Claim C10 witness: a state with a stale .proto file in the target and
a missing source directory. -/
theorem C10_witness :
    copy_protobufs ⟨false, ["drive.proto"], true, true, ["old.proto"]⟩
      = ⟨false, ["drive.proto"], true, true, ["old.proto"]⟩ :=
  C10_missing_source_unchanged ⟨false, ["drive.proto"], true, true, ["old.proto"]⟩ rfl

end ProtonBuild
